import Mathlib

/-!
Shallow embedding of the deferred-notification (reminder) subsystem of
`src/reminder.py`.

Time is modelled as `Int` (seconds since an arbitrary epoch); the ambient
`datetime.now()` of each operation is passed explicitly as a `now`
parameter.  The Firestore `reminders` collection is an association list
from document id to record, the `reminder_history` collection is a list of
entries, and every attempted outbound email send (the body of
`send_reminder` after a successful claim) is recorded in a `dispatches`
log as a `(time, reminder_id)` pair.  The external SMTP dispatcher's
outcome is a parameter `sendResult : Option String` (`none` = success,
`some reason` = the exception message of a failed send), and the external
`dateparser` library is abstracted as the list of its results on the
successive regex-matched / generic phrases.
-/

namespace ReminderSpec

/-- Lifecycle states of a reminder, the closed set of strings the code
stores in the `status` field: `"pending"`, `"in_progress"`, `"done"`,
`"error"`, `"cancelled"`. -/
inductive Status where
  | pending
  | in_progress
  | done
  | error
  | cancelled
deriving DecidableEq, Repr

/-- The `due` field of a stored reminder is an ISO string; parsing it with
`datetime.fromisoformat` either yields a timestamp or raises `ValueError`
(`src/reminder.py` lines 400-405).  `valid t` is a string parsing to time
`t`; `invalid raw` is an unparseable string. -/
inductive DueVal where
  | valid (t : Int)
  | invalid (raw : String)
deriving DecidableEq, Repr

/-- A document of the `reminders` collection (fields written by
`create_reminder`, `send_reminder`, `cancel_reminder`,
`reschedule_reminder`).  Fields absent from a document are `none`. -/
structure Reminder where
  title : String
  body : String
  sender : String
  due : Option DueVal
  status : Status
  thread_id : Option String
  created_at : Option Int := none
  processing_started_at : Option Int := none
  completed_at : Option Int := none
  cancelled_at : Option Int := none
  rescheduled_at : Option Int := none
  error_at : Option Int := none
  errMsg : Option String := none
  original_due : Option DueVal := none
deriving DecidableEq, Repr

/-- A document of the append-only `reminder_history` collection.  The
per-kind timestamp field (`completed_at` / `cancelled_at` /
`rescheduled_at`, all `SERVER_TIMESTAMP`) is collapsed into `at_ts`. -/
structure HistoryEntry where
  reminder_id : String
  title : String
  sender : String
  status : String
  original_due : Option DueVal
  new_due : Option DueVal := none
  at_ts : Int
deriving DecidableEq, Repr

/-- The persistent state: the `reminders` collection (id ↦ record), the
`reminder_history` collection, and the log of attempted outbound sends
(each `(time, reminder_id)` entry is one SMTP send attempt performed by
`send_reminder` after winning the claim). -/
structure StoreState where
  reminders : List (String × Reminder)
  history : List HistoryEntry
  dispatches : List (Int × String)
deriving DecidableEq, Repr

/-- Document lookup by id (Firestore `document(id).get()`). -/
def lookupR : List (String × Reminder) → String → Option Reminder
  | [], _ => none
  | p :: rest, id => if p.1 = id then some p.2 else lookupR rest id

/-- Partial document update by id (Firestore `document(id).update({...})`
merging the given fields into the record; a no-op on a missing id). -/
def updateReminder (l : List (String × Reminder)) (id : String)
    (f : Reminder → Reminder) : List (String × Reminder) :=
  l.map fun p => if p.1 = id then (p.1, f p.2) else p

/-- Status of the record with the given id, if it exists. -/
def statusOf (s : StoreState) (id : String) : Option Status :=
  (lookupR s.reminders id).map Reminder.status

/-- Number of send attempts logged for the given reminder id. -/
def dispatchCount (s : StoreState) (id : String) : Nat :=
  (s.dispatches.filter fun p => p.2 == id).length

/-! ### Time Expression Extractor (`extract_reminder_time`, lines 52-140)

The regex pattern matching and the `dateparser.parse` calls are external
(regex engine / third-party parser); what the subsystem adds is the
acceptance loop: walk the candidate parses in order (first the per-pattern
parses of lines 73-105, then the generic-phrase parses of lines 108-134)
and return the first parse whose delta `parsed - now` is strictly
positive; a candidate that failed to parse (`none`) or parsed to a
non-future instant is skipped; if no candidate is accepted the result is
`None`.  `candidates` is that combined ordered list of parser outcomes. -/

/-- Acceptance loop of `extract_reminder_time`: first candidate parse with
`delta > 0` wins; the bound checks at lines 96-99 only log warnings and do
not reject. -/
def extract_reminder_time (now : Int) : List (Option Int) → Option Int
  | [] => none
  | c :: rest =>
    match c with
    | some parsed => if parsed - now > 0 then some parsed else extract_reminder_time now rest
    | none => extract_reminder_time now rest

/-! ### cancel_reminder (lines 488-532) -/

/-- Cancellation: a missing or non-`pending` record is left unchanged and
`False` is returned; a `pending` record is set to `cancelled` with
`cancelled_at`, a history entry is appended, and `True` is returned. -/
def cancel_reminder (s : StoreState) (id : String) (now : Int) :
    StoreState × Bool :=
  match lookupR s.reminders id with
  | none => (s, false)
  | some r =>
    if r.status ≠ Status.pending then (s, false)
    else
      let s1 := { s with reminders := updateReminder s.reminders id fun rr =>
                    { rr with status := Status.cancelled, cancelled_at := some now } }
      ({ s1 with history :=
          { reminder_id := id, title := r.title, sender := r.sender,
            status := "cancelled", original_due := r.due, at_ts := now } :: s1.history },
       true)

/-! ### send_reminder (lines 218-367)

The body of `send_reminder` is: (1) a Firestore transaction that reads the
record and, only if it exists with `status == "pending"`, sets
`status = "in_progress"` and `processing_started_at` and returns the read
data, otherwise returns `False`; (2) on a won claim, one SMTP send
attempt; (3) on send failure, an update to `status = "error"` with the
failure reason and `error_at`; (4) on send success, an update to
`status = "done"` with `completed_at` plus an appended `reminder_history`
entry with status `"completed"`. -/

/-- The transactional check-and-set of `send_reminder`
(`update_reminder_in_transaction`, lines 233-255): returns the read
record data (pre-claim, as the Python code returns `reminder_data` read
before its own buffered update) on a won claim, `none` when the record is
missing or not `pending`. -/
def claimTransaction (s : StoreState) (id : String) (now : Int) :
    StoreState × Option Reminder :=
  match lookupR s.reminders id with
  | none => (s, none)
  | some r =>
    if r.status ≠ Status.pending then (s, none)
    else
      ({ s with reminders := updateReminder s.reminders id fun rr =>
          { rr with status := Status.in_progress,
                    processing_started_at := some now } },
       some r)

/-- Claim-and-dispatch (`send_reminder`): lose the claim → return with the
store untouched; win it → attempt the send (logged in `dispatches`), then
either mark `error` (send failed, lines 329-337) or mark `done` and append
the `"completed"` history entry (lines 339-353). -/
def send_reminder (s : StoreState) (id : String) (now : Int)
    (sendResult : Option String) : StoreState :=
  match claimTransaction s id now with
  | (s1, none) => s1
  | (s1, some rdata) =>
    let s2 := { s1 with dispatches := (now, id) :: s1.dispatches }
    match sendResult with
    | some reason =>
      { s2 with reminders := updateReminder s2.reminders id fun rr =>
          { rr with status := Status.error,
                    errMsg := some ("Email sending failed: " ++ reason),
                    error_at := some now } }
    | none =>
      let s3 := { s2 with reminders := updateReminder s2.reminders id fun rr =>
          { rr with status := Status.done, completed_at := some now } }
      { s3 with history :=
          { reminder_id := id, title := rdata.title, sender := rdata.sender,
            status := "completed", original_due := rdata.due,
            at_ts := now } :: s3.history }

/-! ### In-process scheduling (`schedule_reminder`, lines 197-216)

`threading.Timer` objects are modelled by a set of armed timers
`(fireAt, reminder_id)`; the code keeps no handle to a started timer, so
nothing ever removes or cancels an armed timer — a timer fires at its
`fireAt` instant by running `send_reminder`. -/

/-- System state: the durable store plus the in-memory armed timers. -/
structure SysState where
  store : StoreState
  timers : List (Int × String)
deriving DecidableEq, Repr

/-- Arming (`schedule_reminder`): `delay = due - now`; a non-positive
delay runs `send_reminder` immediately, otherwise a timer is started that
will fire after `delay`, i.e. at instant `now + (due - now) = due`. -/
def schedule_reminder (st : SysState) (id : String) (due now : Int)
    (sendResult : Option String) : SysState :=
  if due - now ≤ 0 then
    { st with store := send_reminder st.store id now sendResult }
  else
    { st with timers := (due, id) :: st.timers }

/-- Firing of an armed timer at its instant: the callback is
`send_reminder(reminder_id, email_obj)` (line 214). -/
def fireTimer (st : SysState) (fireAt : Int) (id : String)
    (sendResult : Option String) : SysState :=
  { st with store := send_reminder st.store id fireAt sendResult }

/-! ### reschedule_reminder (lines 534-599) -/

/-- Rescheduling: a missing or non-`pending` record is left unchanged and
`False` is returned; otherwise `due` is replaced, `rescheduled_at` and
`original_due` are recorded, a `"rescheduled"` history entry is appended,
and `schedule_reminder` is invoked for the new time (which dispatches
immediately when the new time is not in the future). -/
def reschedule_reminder (st : SysState) (id : String) (new_due now : Int)
    (sendResult : Option String) : SysState × Bool :=
  match lookupR st.store.reminders id with
  | none => (st, false)
  | some r =>
    if r.status ≠ Status.pending then (st, false)
    else
      let s1 := { st.store with reminders := updateReminder st.store.reminders id fun rr =>
                    { rr with due := some (DueVal.valid new_due),
                              rescheduled_at := some now,
                              original_due := r.due } }
      let s2 := { s1 with history :=
          { reminder_id := id, title := r.title, sender := r.sender,
            status := "rescheduled", original_due := r.due,
            new_due := some (DueVal.valid new_due), at_ts := now } :: s1.history }
      (schedule_reminder { st with store := s2 } id new_due now sendResult, true)

/-! ### Reconciliation sweeper (`reminder_checker_loop`, lines 369-430)

One pass of the loop body: query the snapshot of records with
`status == "pending"`, and for each one whose `due` parses and has
elapsed (`due_time <= now`) run `send_reminder`; records with a missing
or unparseable `due` are skipped.  `f` gives the dispatcher outcome for
each processed id. -/

/-- Elapsed-due test of the loop body (lines 394-408): `False` on a
missing or unparseable `due`, otherwise `due_time <= now`. -/
def dueElapsed (r : Reminder) (now : Int) : Bool :=
  match r.due with
  | some (DueVal.valid t) => t ≤ now
  | _ => false

/-- The sweeper's query (lines 382-384): all records with
`status == "pending"`. -/
def sweepSnapshot (l : List (String × Reminder)) : List (String × Reminder) :=
  l.filter fun p => p.2.status = Status.pending

/-- Folding the loop body over the query snapshot. -/
def processSnapshot (s : StoreState) (snap : List (String × Reminder))
    (now : Int) (f : String → Option String) : StoreState :=
  match snap with
  | [] => s
  | (id, r) :: rest =>
    let s1 := if dueElapsed r now then send_reminder s id now (f id) else s
    processSnapshot s1 rest now f

/-- One pass of `reminder_checker_loop`. -/
def reminder_checker_pass (s : StoreState) (now : Int)
    (f : String → Option String) : StoreState :=
  processSnapshot s (sweepSnapshot s.reminders) now f

/-! ### Serialized concurrent claim attempts

Each executor's claim is the atomic Firestore transaction inside
`send_reminder`; every write the subsystem performs after a won claim
keeps the record out of `pending`, so any concurrent execution of timer
callbacks, sweeper passes and cancellations serializes at the transaction
commit points into some sequence of these attempts. -/

/-- One serialized attempt against a fixed reminder: a timer-callback or
sweeper execution of `send_reminder` at instant `now` with dispatcher
outcome `sendResult`, or a concurrent `cancel_reminder`. -/
inductive Attempt where
  | exec (now : Int) (sendResult : Option String)
  | cancelAt (now : Int)
deriving DecidableEq, Repr

/-- Running a serialization of concurrent attempts against one id. -/
def runAttempts (s : StoreState) (id : String) : List Attempt → StoreState
  | [] => s
  | Attempt.exec now res :: rest => runAttempts (send_reminder s id now res) id rest
  | Attempt.cancelAt now :: rest => runAttempts (cancel_reminder s id now).1 id rest

/-! ### get_reminder_statistics (lines 601-658) -/

/-- Per-user aggregate of the statistics result. -/
structure UserStats where
  total : Nat
  completed : Nat
  completion_rate : ℚ
deriving DecidableEq, Repr

/-- The statistics dictionary returned on a successful read. -/
structure ReminderStats where
  total_reminders : Nat
  completed : Nat
  cancelled : Nat
  rescheduled : Nat
  overall_completion_rate : ℚ
  by_user : List (String × UserStats)
deriving DecidableEq, Repr

/-- The per-user dictionary maintained by the loop (lines 632-638):
`sender ↦ (total, completed)`, inserting `(0, 0)` on first sight and then
incrementing. -/
def bumpUser (m : List (String × (Nat × Nat))) (sender : String)
    (isCompleted : Bool) : List (String × (Nat × Nat)) :=
  match m with
  | [] => [(sender, (1, if isCompleted then 1 else 0))]
  | (u, tc) :: rest =>
    if u = sender then
      (u, (tc.1 + 1, if isCompleted then tc.2 + 1 else tc.2)) :: rest
    else
      (u, tc) :: bumpUser rest sender isCompleted

/-- Accumulator of the history loop (lines 612-638). -/
structure StatAcc where
  total : Nat := 0
  completed : Nat := 0
  cancelled : Nat := 0
  rescheduled : Nat := 0
  by_user : List (String × (Nat × Nat)) := []
deriving DecidableEq, Repr

/-- One iteration of the history loop: bump the global counters by the
entry's status, and the per-user counters when the entry's `sender` is
truthy (a Python empty string or missing sender is falsy). -/
def statStep (acc : StatAcc) (e : HistoryEntry) : StatAcc :=
  { total := acc.total + 1,
    completed := if e.status = "completed" then acc.completed + 1 else acc.completed,
    cancelled := if e.status = "cancelled" then acc.cancelled + 1 else acc.cancelled,
    rescheduled := if e.status = "rescheduled" then acc.rescheduled + 1 else acc.rescheduled,
    by_user := if e.sender ≠ "" then
        bumpUser acc.by_user e.sender (e.status = "completed")
      else acc.by_user }

/-- Statistics over the `reminder_history` collection; reading the
collection may fail (`Except.error` is the caught exception's message, the
code's `{"error": str(e)}` return).  Completion rates use the guarded
divisions of lines 641-644. -/
def get_reminder_statistics (input : Except String (List HistoryEntry)) :
    Except String ReminderStats :=
  match input with
  | Except.error e => Except.error e
  | Except.ok history =>
    let acc := history.foldl statStep {}
    Except.ok
      { total_reminders := acc.total,
        completed := acc.completed,
        cancelled := acc.cancelled,
        rescheduled := acc.rescheduled,
        overall_completion_rate :=
          if acc.total > 0 then (acc.completed : ℚ) / (acc.total : ℚ) * 100 else 0,
        by_user := acc.by_user.map fun p =>
          (p.1, { total := p.2.1, completed := p.2.2,
                  completion_rate :=
                    if p.2.1 > 0 then (p.2.2 : ℚ) / (p.2.1 : ℚ) * 100 else 0 }) }

/-! ### Concrete sample data (used by witnesses and counterexamples) -/

/-- A sample pending reminder, due at instant 100. -/
def rPending : Reminder :=
  { title := "Follow-up requested", body := "please follow up",
    sender := "founder@example.com", due := some (DueVal.valid 100),
    status := Status.pending, thread_id := none }

/-- A store holding the single pending sample reminder under id `r1`. -/
def sPending : StoreState :=
  { reminders := [("r1", rPending)], history := [], dispatches := [] }

/-- The sample reminder in the terminal `done` state. -/
def rDone : Reminder := { rPending with status := Status.done }

/-- A store holding the sample reminder already `done`. -/
def sDone : StoreState :=
  { reminders := [("r1", rDone)], history := [], dispatches := [] }

/-- The sample reminder in the terminal `cancelled` state. -/
def rCancelled : Reminder := { rPending with status := Status.cancelled }

/-- A store holding the sample reminder already `cancelled`. -/
def sCancelled : StoreState :=
  { reminders := [("r1", rCancelled)], history := [], dispatches := [] }

/-- The sample reminder in the `error` state. -/
def rError : Reminder := { rPending with status := Status.error }

/-- A store holding the sample reminder in the `error` state. -/
def sError : StoreState :=
  { reminders := [("r1", rError)], history := [], dispatches := [] }

/-- System state at creation of the sample reminder: record pending with
`due = 100`, and the timer armed by `create_reminder` → `schedule_reminder`
set to fire at 100. -/
def sys0 : SysState := { store := sPending, timers := [(100, "r1")] }

/-- The system after `reschedule_reminder("r1", 200)` runs at instant 50:
the record's `due` becomes 200 but the timer armed for instant 100 is
still live (the code keeps no handle to started timers and never cancels
them). -/
def sysResched : SysState := (reschedule_reminder sys0 "r1" 200 50 none).1

/-- The system after the stale timer fires at its armed instant 100 (the
dispatcher succeeding). -/
def sysStaleFire : SysState := fireTimer sysResched 100 "r1" none

/-- A sample completed history entry. -/
def hCompleted : HistoryEntry :=
  { reminder_id := "r1", title := "Follow-up requested",
    sender := "founder@example.com", status := "completed",
    original_due := some (DueVal.valid 100), at_ts := 100 }

/-! ### Association-list lemmas -/

theorem lookupR_update_self (l : List (String × Reminder)) (id : String)
    (f : Reminder → Reminder) :
    lookupR (updateReminder l id f) id = (lookupR l id).map f := by
  induction l with
  | nil => rfl
  | cons p rest ih =>
    by_cases h : p.1 = id
    · simp [updateReminder, lookupR, h]
    · simpa [updateReminder, lookupR, h] using ih

theorem lookupR_update_other (l : List (String × Reminder)) (id id2 : String)
    (f : Reminder → Reminder) (hne : id2 ≠ id) :
    lookupR (updateReminder l id2 f) id = lookupR l id := by
  induction l with
  | nil => rfl
  | cons p rest ih =>
    have hne2 : ¬ id = id2 := fun he => hne he.symm
    by_cases h : p.1 = id2
    · simpa [updateReminder, lookupR, h, hne] using ih
    · by_cases h2 : p.1 = id
      · simp [updateReminder, lookupR, h, h2, hne2]
      · simpa [updateReminder, lookupR, h, h2] using ih

theorem lookupR_of_mem_nodup (l : List (String × Reminder)) (id : String)
    (r : Reminder) (hnd : (l.map Prod.fst).Nodup) (hm : (id, r) ∈ l) :
    lookupR l id = some r := by
  induction l with
  | nil => simp at hm
  | cons p rest ih =>
    rcases List.mem_cons.mp hm with h | h
    · simp [lookupR, ← h]
    · have hnd' : (rest.map Prod.fst).Nodup := (List.nodup_cons.mp hnd).2
      have hid : id ∈ rest.map Prod.fst := List.mem_map_of_mem Prod.fst h
      have hp1 : p.1 ∉ rest.map Prod.fst := (List.nodup_cons.mp hnd).1
      have hne : ¬ p.1 = id := fun he => hp1 (he ▸ hid)
      simpa [lookupR, hne] using ih hnd' h

theorem mem_of_lookupR (l : List (String × Reminder)) (id : String)
    (r : Reminder) (h : lookupR l id = some r) : (id, r) ∈ l := by
  induction l with
  | nil => simp [lookupR] at h
  | cons p rest ih =>
    by_cases hp : p.1 = id
    · simp [lookupR, hp] at h
      subst h
      subst hp
      exact List.mem_cons_self _ _
    · simp [lookupR, hp] at h
      exact List.mem_cons_of_mem p (ih h)

/-! ### Characterization lemmas for the operations -/

theorem send_reminder_not_pending (s : StoreState) (id : String) (now : Int)
    (res : Option String) (h : statusOf s id ≠ some Status.pending) :
    send_reminder s id now res = s := by
  cases hl : lookupR s.reminders id with
  | none => simp [send_reminder, claimTransaction, hl]
  | some r =>
    have hr : r.status ≠ Status.pending := by
      intro he
      exact h (by simp [statusOf, hl, he])
    simp [send_reminder, claimTransaction, hl, hr]

theorem cancel_reminder_not_pending (s : StoreState) (id : String) (now : Int)
    (h : statusOf s id ≠ some Status.pending) :
    cancel_reminder s id now = (s, false) := by
  cases hl : lookupR s.reminders id with
  | none => simp [cancel_reminder, hl]
  | some r =>
    have hr : r.status ≠ Status.pending := by
      intro he
      exact h (by simp [statusOf, hl, he])
    simp [cancel_reminder, hl, hr]

theorem send_reminder_pending_dispatches (s : StoreState) (id : String)
    (now : Int) (res : Option String) (r : Reminder)
    (hl : lookupR s.reminders id = some r) (hr : r.status = Status.pending) :
    (send_reminder s id now res).dispatches = (now, id) :: s.dispatches := by
  cases res with
  | none => simp [send_reminder, claimTransaction, hl, hr]
  | some reason => simp [send_reminder, claimTransaction, hl, hr]

theorem send_reminder_pending_success (s : StoreState) (id : String)
    (now : Int) (r : Reminder)
    (hl : lookupR s.reminders id = some r) (hr : r.status = Status.pending) :
    lookupR (send_reminder s id now none).reminders id =
      some { r with status := Status.done, processing_started_at := some now,
                    completed_at := some now }
    ∧ (send_reminder s id now none).history =
        { reminder_id := id, title := r.title, sender := r.sender,
          status := "completed", original_due := r.due,
          at_ts := now } :: s.history := by
  constructor
  · simp [send_reminder, claimTransaction, hl, hr, lookupR_update_self]
  · simp [send_reminder, claimTransaction, hl, hr]

theorem send_reminder_pending_failure (s : StoreState) (id : String)
    (now : Int) (reason : String) (r : Reminder)
    (hl : lookupR s.reminders id = some r) (hr : r.status = Status.pending) :
    lookupR (send_reminder s id now (some reason)).reminders id =
      some { r with status := Status.error, processing_started_at := some now,
                    errMsg := some ("Email sending failed: " ++ reason),
                    error_at := some now }
    ∧ (send_reminder s id now (some reason)).history = s.history := by
  constructor
  · simp [send_reminder, claimTransaction, hl, hr, lookupR_update_self]
  · simp [send_reminder, claimTransaction, hl, hr]

theorem send_reminder_other_preserves (s : StoreState) (id id2 : String)
    (now : Int) (res : Option String) (hne : id2 ≠ id) :
    lookupR (send_reminder s id2 now res).reminders id = lookupR s.reminders id
    ∧ dispatchCount (send_reminder s id2 now res) id = dispatchCount s id := by
  cases hl : lookupR s.reminders id2 with
  | none =>
    simp [send_reminder, claimTransaction, hl]
  | some r =>
    by_cases hr : r.status = Status.pending
    · cases res with
      | none =>
        constructor
        · simp [send_reminder, claimTransaction, hl, hr, lookupR_update_other _ _ _ _ hne]
        · simp [send_reminder, claimTransaction, hl, hr, dispatchCount, hne]
      | some reason =>
        constructor
        · simp [send_reminder, claimTransaction, hl, hr, lookupR_update_other _ _ _ _ hne]
        · simp [send_reminder, claimTransaction, hl, hr, dispatchCount, hne]
    · simp [send_reminder, claimTransaction, hl, hr]

theorem cancel_reminder_pending (s : StoreState) (id : String) (now : Int)
    (r : Reminder)
    (hl : lookupR s.reminders id = some r) (hr : r.status = Status.pending) :
    (cancel_reminder s id now).2 = true
    ∧ lookupR (cancel_reminder s id now).1.reminders id =
        some { r with status := Status.cancelled, cancelled_at := some now }
    ∧ (cancel_reminder s id now).1.history =
        { reminder_id := id, title := r.title, sender := r.sender,
          status := "cancelled", original_due := r.due,
          at_ts := now } :: s.history
    ∧ (cancel_reminder s id now).1.dispatches = s.dispatches := by
  refine ⟨by simp [cancel_reminder, hl, hr], ?_, ?_, ?_⟩
  · simp [cancel_reminder, hl, hr, lookupR_update_self]
  · simp [cancel_reminder, hl, hr]
  · simp [cancel_reminder, hl, hr]

theorem send_reminder_dispatch_shape (s : StoreState) (id : String)
    (now : Int) (res : Option String) :
    (send_reminder s id now res).dispatches = s.dispatches
    ∨ (send_reminder s id now res).dispatches = (now, id) :: s.dispatches := by
  cases hl : lookupR s.reminders id with
  | none => exact Or.inl (by simp [send_reminder, claimTransaction, hl])
  | some r =>
    by_cases hr : r.status = Status.pending
    · exact Or.inr (send_reminder_pending_dispatches s id now res r hl hr)
    · exact Or.inl (by simp [send_reminder, claimTransaction, hl, hr])

theorem statusOf_pending_elim (s : StoreState) (id : String)
    (hp : statusOf s id = some Status.pending) :
    ∃ r, lookupR s.reminders id = some r ∧ r.status = Status.pending := by
  unfold statusOf at hp
  cases hlk : lookupR s.reminders id with
  | none => rw [hlk] at hp; simp at hp
  | some r =>
    rw [hlk] at hp
    simp at hp
    exact ⟨r, rfl, hp⟩

theorem statusOf_send_pending (s : StoreState) (id : String) (now : Int)
    (res : Option String) (r : Reminder)
    (hl : lookupR s.reminders id = some r) (hr : r.status = Status.pending) :
    statusOf (send_reminder s id now res) id ≠ some Status.pending := by
  cases res with
  | none =>
    have h := (send_reminder_pending_success s id now r hl hr).1
    simp [statusOf, h]
  | some reason =>
    have h := (send_reminder_pending_failure s id now reason r hl hr).1
    simp [statusOf, h]

theorem statusOf_cancel_pending (s : StoreState) (id : String) (now : Int)
    (r : Reminder)
    (hl : lookupR s.reminders id = some r) (hr : r.status = Status.pending) :
    statusOf (cancel_reminder s id now).1 id ≠ some Status.pending := by
  have h := (cancel_reminder_pending s id now r hl hr).2.1
  simp [statusOf, h]

theorem runAttempts_frozen (id : String) (l : List Attempt) (s : StoreState)
    (h : statusOf s id ≠ some Status.pending) :
    runAttempts s id l = s := by
  induction l generalizing s with
  | nil => rfl
  | cons a rest ih =>
    cases a with
    | exec now res =>
      simp only [runAttempts, send_reminder_not_pending s id now res h]
      exact ih s h
    | cancelAt now =>
      simp only [runAttempts, cancel_reminder_not_pending s id now h]
      exact ih s h

/-! ### Claim C1 -/

/-- C1: a notification send is attempted only by an executor whose
transactional check-and-set observed `status == pending` (and atomically
set `in_progress`); an executor observing any other status — including
`cancelled` — returns leaving the store untouched; hence across any
serialization of concurrent claim attempts (timer callbacks, sweeper
executions, cancellations) at most one dispatch is logged for a
reminder. -/
theorem claim_C1_at_most_once (s : StoreState) (id : String) (l : List Attempt) :
    dispatchCount (runAttempts s id l) id ≤ dispatchCount s id + 1
    ∧ (statusOf s id ≠ some Status.pending → runAttempts s id l = s) := by
  refine ⟨?_, runAttempts_frozen id l s⟩
  induction l generalizing s with
  | nil => simp [runAttempts]
  | cons a rest ih =>
    cases a with
    | exec now res =>
      by_cases hp : statusOf s id = some Status.pending
      · obtain ⟨r, hl, hr⟩ := statusOf_pending_elim s id hp
        have hfr := runAttempts_frozen id rest (send_reminder s id now res)
            (statusOf_send_pending s id now res r hl hr)
        have hd := send_reminder_pending_dispatches s id now res r hl hr
        simp only [runAttempts, hfr]
        simp [dispatchCount, hd]
      · simp only [runAttempts, send_reminder_not_pending s id now res hp]
        exact ih s
    | cancelAt now =>
      by_cases hp : statusOf s id = some Status.pending
      · obtain ⟨r, hl, hr⟩ := statusOf_pending_elim s id hp
        have hfr := runAttempts_frozen id rest (cancel_reminder s id now).1
            (statusOf_cancel_pending s id now r hl hr)
        have hd := (cancel_reminder_pending s id now r hl hr).2.2.2
        simp only [runAttempts, hfr]
        simp [dispatchCount, hd]
      · simp only [runAttempts, cancel_reminder_not_pending s id now hp]
        exact ih s

/-- Witness for C1: a race of two timer/sweeper executions against the
pending sample reminder logs at most one dispatch, and an execution
against an already-`done` record leaves the store untouched. -/
theorem claim_C1_at_most_once_witness :
    dispatchCount (runAttempts sPending "r1"
        [Attempt.exec 150 none, Attempt.exec 160 none]) "r1"
      ≤ dispatchCount sPending "r1" + 1
    ∧ runAttempts sDone "r1" [Attempt.exec 150 none] = sDone :=
  ⟨(claim_C1_at_most_once sPending "r1"
      [Attempt.exec 150 none, Attempt.exec 160 none]).1,
   (claim_C1_at_most_once sDone "r1" [Attempt.exec 150 none]).2 (by decide)⟩

/-! ### Sweeper-pass lemmas -/

theorem processSnapshot_append (s : StoreState) (l1 l2 : List (String × Reminder))
    (now : Int) (f : String → Option String) :
    processSnapshot s (l1 ++ l2) now f =
      processSnapshot (processSnapshot s l1 now f) l2 now f := by
  induction l1 generalizing s with
  | nil => rfl
  | cons p rest ih =>
    cases p with
    | mk i rr =>
      simp only [List.cons_append, processSnapshot]
      exact ih _

theorem processSnapshot_preserves (snap : List (String × Reminder))
    (s : StoreState) (id : String) (now : Int) (f : String → Option String)
    (h : id ∉ snap.map Prod.fst) :
    lookupR (processSnapshot s snap now f).reminders id = lookupR s.reminders id
    ∧ dispatchCount (processSnapshot s snap now f) id = dispatchCount s id := by
  induction snap generalizing s with
  | nil => exact ⟨rfl, rfl⟩
  | cons p rest ih =>
    cases p with
    | mk i rr =>
      have hi : i ≠ id := by
        intro he
        exact h (by simp [he])
      have hrest : id ∉ rest.map Prod.fst := by
        intro hm
        exact h (by simp [hm])
      simp only [processSnapshot]
      cases hd : dueElapsed rr now with
      | true =>
        simp only [hd, if_true]
        have hpres := send_reminder_other_preserves s id i now (f i) hi
        have hih := ih (send_reminder s i now (f i)) hrest
        exact ⟨hih.1.trans hpres.1, hih.2.trans hpres.2⟩
      | false =>
        simp only [hd, Bool.false_eq_true, if_false]
        exact ih s hrest

/-! ### Claim C2 -/

/-- C2: a sweeper pass queries all `pending` records and, for every such
record whose valid `due` has elapsed (`due_time <= now`), runs the same
`send_reminder` claim-and-dispatch used by the in-process timer: exactly
one new dispatch is logged for that record and (with the dispatcher
succeeding) it ends `done`.  In particular a pending overdue reminder
surviving a restart is dispatched by the next pass. -/
theorem claim_C2_sweeper_dispatches_due (s : StoreState) (id : String)
    (r : Reminder) (now t : Int) (f : String → Option String)
    (hnd : (s.reminders.map Prod.fst).Nodup)
    (hm : (id, r) ∈ s.reminders)
    (hp : r.status = Status.pending)
    (hdue : r.due = some (DueVal.valid t))
    (ht : t ≤ now)
    (hf : f id = none) :
    dispatchCount (reminder_checker_pass s now f) id = dispatchCount s id + 1
    ∧ statusOf (reminder_checker_pass s now f) id = some Status.done := by
  have hsnapmem : (id, r) ∈ sweepSnapshot s.reminders :=
    List.mem_filter.mpr ⟨hm, by simp [hp]⟩
  obtain ⟨l1, l2, hsnap⟩ := List.append_of_mem hsnapmem
  have hsub : (sweepSnapshot s.reminders).Sublist s.reminders :=
    List.filter_sublist _
  have hndsnap : ((sweepSnapshot s.reminders).map Prod.fst).Nodup :=
    hnd.sublist (hsub.map Prod.fst)
  rw [hsnap] at hndsnap
  simp only [List.map_append, List.map_cons] at hndsnap
  have hparts := List.nodup_append.mp hndsnap
  have h1 : id ∉ l1.map Prod.fst := by
    intro hmem
    exact hparts.2.2 hmem (List.mem_cons_self _ _)
  have h2 : id ∉ l2.map Prod.fst := (List.nodup_cons.mp hparts.2.1).1
  have hl0 : lookupR s.reminders id = some r := lookupR_of_mem_nodup _ _ _ hnd hm
  have hpres1 := processSnapshot_preserves l1 s id now f h1
  have hl1 : lookupR (processSnapshot s l1 now f).reminders id = some r :=
    hpres1.1.trans hl0
  have hdueb : dueElapsed r now = true := by simp [dueElapsed, hdue, ht]
  have hsucc := send_reminder_pending_success (processSnapshot s l1 now f) id now r hl1 hp
  have hdisp2 := send_reminder_pending_dispatches (processSnapshot s l1 now f) id now none r hl1 hp
  have hpres2 := processSnapshot_preserves l2
      (send_reminder (processSnapshot s l1 now f) id now none) id now f h2
  have hpass : reminder_checker_pass s now f =
      processSnapshot (send_reminder (processSnapshot s l1 now f) id now none) l2 now f := by
    rw [reminder_checker_pass, hsnap, processSnapshot_append]
    simp only [processSnapshot, hdueb, if_true, hf]
  constructor
  · rw [hpass, hpres2.2]
    have hc2 : dispatchCount (send_reminder (processSnapshot s l1 now f) id now none) id =
        dispatchCount (processSnapshot s l1 now f) id + 1 := by
      simp [dispatchCount, hdisp2]
    rw [hc2, hpres1.2]
  · rw [hpass]
    simp [statusOf, hpres2.1, hsucc.1]

/-- Witness for C2: in a store holding the single pending sample reminder
due at 100, the sweeper pass at instant 150 dispatches it exactly once
and leaves it `done`. -/
theorem claim_C2_sweeper_dispatches_due_witness :
    dispatchCount (reminder_checker_pass sPending 150 fun _ => none) "r1" =
      dispatchCount sPending "r1" + 1
    ∧ statusOf (reminder_checker_pass sPending 150 fun _ => none) "r1" =
        some Status.done :=
  claim_C2_sweeper_dispatches_due sPending "r1" rPending 150 100 (fun _ => none)
    (by decide) (by decide) (by decide) (by decide) (by decide) rfl

/-! ### Claim C3 -/

/-- Any timestamp returned by the extractor's acceptance loop is strictly
in the future. -/
theorem extract_reminder_time_some_future (now : Int)
    (cands : List (Option Int)) :
    ∀ t, extract_reminder_time now cands = some t → now < t := by
  induction cands with
  | nil =>
    intro t h
    simp [extract_reminder_time] at h
  | cons c rest ih =>
    intro t h
    cases c with
    | none =>
      simp only [extract_reminder_time] at h
      exact ih t h
    | some p =>
      simp only [extract_reminder_time] at h
      by_cases hp : p - now > 0
      · rw [if_pos hp] at h
        simp at h
        omega
      · rw [if_neg hp] at h
        exact ih t h

/-- C3 counterexample: the claim says a parse under the ~30 second
de-minimis threshold or beyond the ~1 year horizon yields `none`; but the
extractor accepts a candidate parsed to 10 seconds ahead and one parsed to
two years (63072000 s) ahead — the bound checks in the code only log
warnings. -/
theorem claim_C3_counterexample :
    extract_reminder_time 0 [some 10] = some 10
    ∧ extract_reminder_time 0 [some 63072000] = some 63072000 := by
  decide

/-- C3 (amended): `extract_reminder_time` accepts exactly the first
candidate parse lying strictly in the future — any accepted timestamp is
strictly after `now`, and any strictly-future parse is accepted however
near or far it is (the de-minimis and one-year bounds of the claim are
only logged warnings, not rejections). -/
theorem claim_C3_accepts_any_strict_future (now : Int) (cands : List (Option Int)) :
    (∀ t, extract_reminder_time now cands = some t → now < t)
    ∧ (∀ t, now < t → extract_reminder_time now (some t :: cands) = some t) := by
  constructor
  · exact extract_reminder_time_some_future now cands
  · intro t ht
    have hpos : t - now > 0 := by omega
    simp [extract_reminder_time, hpos]

/-- Witness for the amended C3: a candidate parsed 10 seconds ahead of
`now = 0` is accepted, and the accepted value is strictly future. -/
theorem claim_C3_accepts_any_strict_future_witness :
    extract_reminder_time 0 [some 10] = some 10 ∧ (0 : Int) < 10 :=
  ⟨(claim_C3_accepts_any_strict_future 0 []).2 10 (by decide),
   (claim_C3_accepts_any_strict_future 0 [some 10]).1 10
     ((claim_C3_accepts_any_strict_future 0 []).2 10 (by decide))⟩

/-! ### Claim C4 -/

/-- Elimination form of the sweeper's elapsed-due test. -/
theorem dueElapsed_elim (r : Reminder) (now : Int)
    (h : dueElapsed r now = true) :
    ∃ t, r.due = some (DueVal.valid t) ∧ t ≤ now := by
  cases hd : r.due with
  | none => rw [dueElapsed, hd] at h; cases h
  | some dv =>
    cases dv with
    | valid t =>
      rw [dueElapsed, hd] at h
      exact ⟨t, rfl, by simpa using h⟩
    | invalid raw => rw [dueElapsed, hd] at h; cases h

theorem processSnapshot_dispatch_shape (snap : List (String × Reminder))
    (s : StoreState) (now : Int) (f : String → Option String) :
    ∃ L, (processSnapshot s snap now f).dispatches = L ++ s.dispatches
    ∧ ∀ q ∈ L, q.1 = now ∧ ∃ rr, (q.2, rr) ∈ snap ∧ dueElapsed rr now = true := by
  induction snap generalizing s with
  | nil => exact ⟨[], rfl, by simp⟩
  | cons p rest ih =>
    cases p with
    | mk i rr =>
      simp only [processSnapshot]
      cases hd : dueElapsed rr now with
      | false =>
        simp only [hd, Bool.false_eq_true, if_false]
        obtain ⟨L, hL, hprop⟩ := ih s
        refine ⟨L, hL, fun q hq => ⟨(hprop q hq).1, ?_⟩⟩
        obtain ⟨rr2, hm, hdd⟩ := (hprop q hq).2
        exact ⟨rr2, List.mem_cons_of_mem _ hm, hdd⟩
      | true =>
        simp only [hd, if_true]
        obtain ⟨L, hL, hprop⟩ := ih (send_reminder s i now (f i))
        rcases send_reminder_dispatch_shape s i now (f i) with hsh | hsh
        · refine ⟨L, by rw [hL, hsh], fun q hq => ⟨(hprop q hq).1, ?_⟩⟩
          obtain ⟨rr2, hm, hdd⟩ := (hprop q hq).2
          exact ⟨rr2, List.mem_cons_of_mem _ hm, hdd⟩
        · refine ⟨L ++ [(now, i)], by rw [hL, hsh]; simp, fun q hq => ?_⟩
          rcases List.mem_append.mp hq with hq2 | hq2
          · refine ⟨(hprop q hq2).1, ?_⟩
            obtain ⟨rr2, hm, hdd⟩ := (hprop q hq2).2
            exact ⟨rr2, List.mem_cons_of_mem _ hm, hdd⟩
          · have hq3 : q = (now, i) := by simpa using hq2
            subst hq3
            exact ⟨rfl, rr, List.mem_cons_self _ _, hd⟩

/-- C4 counterexample: after `reschedule_reminder` moves the sample
reminder's `due_at` from 100 to 200 at instant 50, the timer armed at
creation for instant 100 is still in the armed set (the code keeps no
handle to started timers); when it fires at 100 its `send_reminder`
claim sees `status == pending` and dispatches at instant 100, strictly
before the record's current `due_at = 200`. -/
theorem claim_C4_counterexample :
    (100, "r1") ∈ sysResched.timers
    ∧ statusOf sysResched.store "r1" = some Status.pending
    ∧ sysStaleFire.store.dispatches = [(100, "r1")]
    ∧ (lookupR sysStaleFire.store.reminders "r1").map Reminder.due =
        some (some (DueVal.valid 200))
    ∧ (100 : Int) < 200 := by
  decide

/-- C4 (amended): a timer is armed to fire exactly at the `due_at` current
at arm time (immediate fire only when that `due_at` has already arrived,
the dispatch instant `now` then being no earlier than it), and a sweeper
pass logs dispatches only at instant `now` and only for records whose
stored valid `due` satisfies `due_time <= now`; so no dispatch precedes
the `due_at` under which its executor was triggered.  After a reschedule
to a later time, however, the stale timer armed for the original `due_at`
remains live and may dispatch before the new `due_at` (the
counterexample). -/
theorem claim_C4_no_dispatch_before_armed_due (st : SysState) (id : String)
    (due now : Int) (res : Option String) (s : StoreState)
    (f : String → Option String) :
    (due - now > 0 →
      schedule_reminder st id due now res = { st with timers := (due, id) :: st.timers })
    ∧ (due - now ≤ 0 →
      due ≤ now
      ∧ ((schedule_reminder st id due now res).store.dispatches = st.store.dispatches
         ∨ (schedule_reminder st id due now res).store.dispatches =
             (now, id) :: st.store.dispatches))
    ∧ (∃ L, (reminder_checker_pass s now f).dispatches = L ++ s.dispatches
        ∧ ∀ q ∈ L, q.1 = now ∧ ∃ rr t, (q.2, rr) ∈ s.reminders
            ∧ rr.due = some (DueVal.valid t) ∧ t ≤ now) := by
  refine ⟨?_, ?_, ?_⟩
  · intro hpos
    have hneg : ¬ (due - now ≤ 0) := by omega
    simp [schedule_reminder, hneg]
  · intro hle
    refine ⟨by omega, ?_⟩
    simp only [schedule_reminder, hle, if_pos]
    exact send_reminder_dispatch_shape st.store id now res
  · obtain ⟨L, hL, hprop⟩ :=
      processSnapshot_dispatch_shape (sweepSnapshot s.reminders) s now f
    refine ⟨L, hL, fun q hq => ⟨(hprop q hq).1, ?_⟩⟩
    obtain ⟨rr, hm, hdd⟩ := (hprop q hq).2
    obtain ⟨t, hdt, hlt⟩ := dueElapsed_elim rr now hdd
    exact ⟨rr, t, (List.mem_filter.mp hm).1, hdt, hlt⟩

/-- Witness for the amended C4: arming at instant 50 for `due = 300`
stores a timer firing at 300, and arming at instant 150 for the elapsed
`due = 100` dispatches, if at all, at instant 150 ≥ 100. -/
theorem claim_C4_no_dispatch_before_armed_due_witness :
    schedule_reminder sys0 "r1" 300 50 none =
      { sys0 with timers := (300, "r1") :: sys0.timers }
    ∧ (100 : Int) ≤ 150
    ∧ ((schedule_reminder sys0 "r1" 100 150 none).store.dispatches =
         sys0.store.dispatches
       ∨ (schedule_reminder sys0 "r1" 100 150 none).store.dispatches =
           (150, "r1") :: sys0.store.dispatches) :=
  have h2 := (claim_C4_no_dispatch_before_armed_due sys0 "r1" 100 150 none
    sPending (fun _ => none)).2.1 (by decide)
  ⟨(claim_C4_no_dispatch_before_armed_due sys0 "r1" 300 50 none sPending
      (fun _ => none)).1 (by decide),
   h2.1, h2.2⟩

/-- A record whose status is not `pending` never appears in the sweeper's
query snapshot. -/
theorem not_mem_snapshot_keys (s : StoreState) (id : String) (r : Reminder)
    (hnd : (s.reminders.map Prod.fst).Nodup)
    (hl : lookupR s.reminders id = some r)
    (hnp : r.status ≠ Status.pending) :
    id ∉ (sweepSnapshot s.reminders).map Prod.fst := by
  intro hmem
  obtain ⟨p, hpmem, hfst⟩ := List.mem_map.mp hmem
  obtain ⟨hpin, hpend⟩ := List.mem_filter.mp hpmem
  cases p with
  | mk a b =>
    cases hfst
    have hlb : lookupR s.reminders (a, b).1 = some b :=
      lookupR_of_mem_nodup _ _ _ hnd hpin
    rw [hl] at hlb
    have hb : r = b := by injection hlb
    subst hb
    exact hnp (by simpa using hpend)

/-! ### Claim C5 -/

/-- C5: a reminder in a terminal state (`done` or `cancelled`) is never
mutated again by any operation of the subsystem: cancellation and
rescheduling refuse it and change nothing, a claim-and-dispatch execution
returns with the store untouched, and a sweeper pass (which queries only
`pending` records) leaves the record exactly as it was. -/
theorem claim_C5_terminal_immutable (s : StoreState) (tm : List (Int × String))
    (id : String) (r : Reminder) (now new_due : Int) (res : Option String)
    (f : String → Option String)
    (hl : lookupR s.reminders id = some r)
    (hterm : r.status = Status.done ∨ r.status = Status.cancelled)
    (hnd : (s.reminders.map Prod.fst).Nodup) :
    cancel_reminder s id now = (s, false)
    ∧ reschedule_reminder ⟨s, tm⟩ id new_due now res = (⟨s, tm⟩, false)
    ∧ send_reminder s id now res = s
    ∧ lookupR (reminder_checker_pass s now f).reminders id = some r := by
  have hnp : r.status ≠ Status.pending := by
    rcases hterm with h | h <;> simp [h]
  have hso : statusOf s id ≠ some Status.pending := by
    simp [statusOf, hl, hnp]
  refine ⟨cancel_reminder_not_pending s id now hso, ?_,
    send_reminder_not_pending s id now res hso, ?_⟩
  · simp [reschedule_reminder, hl, hnp]
  · have hnotin := not_mem_snapshot_keys s id r hnd hl hnp
    exact (processSnapshot_preserves _ s id now f hnotin).1.trans hl

/-- Witness for C5: the operations refuse to touch the sample reminder
when it is `done`, and likewise when it is `cancelled`. -/
theorem claim_C5_terminal_immutable_witness :
    cancel_reminder sDone "r1" 150 = (sDone, false)
    ∧ reschedule_reminder ⟨sDone, []⟩ "r1" 300 150 none = (⟨sDone, []⟩, false)
    ∧ send_reminder sDone "r1" 150 none = sDone
    ∧ lookupR (reminder_checker_pass sDone 150 fun _ => none).reminders "r1" =
        some rDone
    ∧ cancel_reminder sCancelled "r1" 150 = (sCancelled, false) :=
  have h1 := claim_C5_terminal_immutable sDone [] "r1" rDone 150 300 none
    (fun _ => none) (by decide) (Or.inl (by decide)) (by decide)
  have h2 := claim_C5_terminal_immutable sCancelled [] "r1" rCancelled 150 300 none
    (fun _ => none) (by decide) (Or.inr (by decide)) (by decide)
  ⟨h1.1, h1.2.1, h1.2.2.1, h1.2.2.2, h2.1⟩

/-! ### Claim C6 -/

/-- C6: when the dispatcher fails after a successful claim, the record
goes `in_progress → error` with the failure reason
(`"Email sending failed: <reason>"`) and an `error_at` timestamp, and no
history entry is written; and since the sweeper queries only
`status == pending`, a record in `error` is never re-dispatched — a pass
leaves it untouched and logs no new dispatch for it. -/
theorem claim_C6_send_failure_error_no_retry (s : StoreState) (id : String)
    (now : Int) (reason : String) (r : Reminder) (s2 : StoreState)
    (r2 : Reminder) (f : String → Option String)
    (hl : lookupR s.reminders id = some r) (hp : r.status = Status.pending)
    (hl2 : lookupR s2.reminders id = some r2) (he : r2.status = Status.error)
    (hnd : (s2.reminders.map Prod.fst).Nodup) :
    lookupR (send_reminder s id now (some reason)).reminders id =
      some { r with status := Status.error, processing_started_at := some now,
                    errMsg := some ("Email sending failed: " ++ reason),
                    error_at := some now }
    ∧ (send_reminder s id now (some reason)).history = s.history
    ∧ lookupR (reminder_checker_pass s2 now f).reminders id = some r2
    ∧ dispatchCount (reminder_checker_pass s2 now f) id = dispatchCount s2 id := by
  have hfail := send_reminder_pending_failure s id now reason r hl hp
  have hnotin := not_mem_snapshot_keys s2 id r2 hnd hl2 (by simp [he])
  have hpres := processSnapshot_preserves _ s2 id now f hnotin
  exact ⟨hfail.1, hfail.2, hpres.1.trans hl2, hpres.2⟩

/-- Witness for C6: a failing send against the pending sample reminder
leaves it in `error` with the reason recorded, and a sweeper pass over a
store whose sample reminder is in `error` changes nothing for it. -/
theorem claim_C6_send_failure_error_no_retry_witness :
    lookupR (send_reminder sPending "r1" 150 (some "boom")).reminders "r1" =
      some { rPending with status := Status.error,
                           processing_started_at := some 150,
                           errMsg := some ("Email sending failed: " ++ "boom"),
                           error_at := some 150 }
    ∧ (send_reminder sPending "r1" 150 (some "boom")).history = sPending.history
    ∧ lookupR (reminder_checker_pass sError 150 fun _ => none).reminders "r1" =
        some rError
    ∧ dispatchCount (reminder_checker_pass sError 150 fun _ => none) "r1" =
        dispatchCount sError "r1" :=
  claim_C6_send_failure_error_no_retry sPending "r1" 150 "boom" rPending sError
    rError (fun _ => none) (by decide) (by decide) (by decide) (by decide)
    (by decide)

/-! ### Claim C7 -/

/-- C7: `cancel_reminder` on a missing record, or on one whose status is
not `pending` (already `cancelled`, `done`, `in_progress` or `error`),
returns `False` without modifying anything (the code's exception handler
also converts any raised error into a `False` return, so the modelled
function is total); cancelling a `pending` record sets `cancelled` with
`cancelled_at`, appends a history entry, and returns `True`. -/
theorem claim_C7_cancel_semantics (s : StoreState) (id : String) (now : Int) :
    (lookupR s.reminders id = none → cancel_reminder s id now = (s, false))
    ∧ (∀ r, lookupR s.reminders id = some r → r.status ≠ Status.pending →
        cancel_reminder s id now = (s, false))
    ∧ (∀ r, lookupR s.reminders id = some r → r.status = Status.pending →
        (cancel_reminder s id now).2 = true
        ∧ lookupR (cancel_reminder s id now).1.reminders id =
            some { r with status := Status.cancelled, cancelled_at := some now }
        ∧ (cancel_reminder s id now).1.history =
            { reminder_id := id, title := r.title, sender := r.sender,
              status := "cancelled", original_due := r.due,
              at_ts := now } :: s.history) := by
  refine ⟨?_, ?_, ?_⟩
  · intro h
    simp [cancel_reminder, h]
  · intro r hl hnp
    simp [cancel_reminder, hl, hnp]
  · intro r hl hp
    have h := cancel_reminder_pending s id now r hl hp
    exact ⟨h.1, h.2.1, h.2.2.1⟩

/-- Witness for C7: cancelling a missing id and a `done` record returns
`False` leaving the store unchanged; cancelling the pending sample
reminder returns `True` and marks it `cancelled`. -/
theorem claim_C7_cancel_semantics_witness :
    cancel_reminder sPending "missing" 150 = (sPending, false)
    ∧ cancel_reminder sDone "r1" 150 = (sDone, false)
    ∧ (cancel_reminder sPending "r1" 150).2 = true
    ∧ lookupR (cancel_reminder sPending "r1" 150).1.reminders "r1" =
        some { rPending with status := Status.cancelled,
                             cancelled_at := some 150 } :=
  ⟨(claim_C7_cancel_semantics sPending "missing" 150).1 (by decide),
   (claim_C7_cancel_semantics sDone "r1" 150).2.1 rDone (by decide) (by decide),
   ((claim_C7_cancel_semantics sPending "r1" 150).2.2 rPending (by decide)
     (by decide)).1,
   ((claim_C7_cancel_semantics sPending "r1" 150).2.2 rPending (by decide)
     (by decide)).2.1⟩

/-! ### Claim C8 -/

/-- C8 counterexample: rescheduling the pending sample reminder to the
past instant 50 at `now = 100` succeeds (`True`), but the record does not
remain `pending`: `reschedule_reminder` calls `schedule_reminder`, whose
non-positive delay branch runs `send_reminder` synchronously, so the
record is already `done` when the reschedule call returns. -/
theorem claim_C8_counterexample :
    (reschedule_reminder sys0 "r1" 50 100 none).2 = true
    ∧ statusOf (reschedule_reminder sys0 "r1" 50 100 none).1.store "r1" =
        some Status.done := by
  decide

/-- C8 (amended): rescheduling a missing or non-`pending` reminder
returns `False` changing nothing; rescheduling a pending reminder to a
time still in the future (`now < new_due`) returns `True`, replaces `due`
with the new time recording the previous one as `original_due`, and
preserves the record's identity — same id key, same `sender`, `title`,
`body`, and still `pending`.  (When `new_due` is not in the future the
synchronous immediate dispatch of `schedule_reminder` fires instead — the
counterexample — so the claim holds only for future `new_due`.) -/
theorem claim_C8_reschedule_preserves_identity (st : SysState) (id : String)
    (new_due now : Int) (res : Option String) :
    (lookupR st.store.reminders id = none →
        reschedule_reminder st id new_due now res = (st, false))
    ∧ (∀ r, lookupR st.store.reminders id = some r →
        r.status ≠ Status.pending →
        reschedule_reminder st id new_due now res = (st, false))
    ∧ (∀ r, lookupR st.store.reminders id = some r →
        r.status = Status.pending → now < new_due →
        (reschedule_reminder st id new_due now res).2 = true
        ∧ lookupR (reschedule_reminder st id new_due now res).1.store.reminders id =
            some { r with due := some (DueVal.valid new_due),
                          rescheduled_at := some now, original_due := r.due }
        ∧ statusOf (reschedule_reminder st id new_due now res).1.store id =
            some Status.pending) := by
  refine ⟨?_, ?_, ?_⟩
  · intro h
    simp [reschedule_reminder, h]
  · intro r hl hnp
    simp [reschedule_reminder, hl, hnp]
  · intro r hl hp hfut
    have hneg : ¬ (new_due - now ≤ 0) := by omega
    have hlk : lookupR (reschedule_reminder st id new_due now res).1.store.reminders id =
        some { r with due := some (DueVal.valid new_due),
                      rescheduled_at := some now, original_due := r.due } := by
      simp [reschedule_reminder, hl, hp, schedule_reminder, hneg,
        lookupR_update_self]
    refine ⟨?_, hlk, ?_⟩
    · simp [reschedule_reminder, hl, hp]
    · simp [statusOf, hlk, hp]

/-- Witness for the amended C8: rescheduling the pending sample reminder
(due 100) to the future instant 300 at `now = 150` succeeds, swaps `due`
for 300 recording `original_due = 100`, and keeps it `pending`; a
reschedule against the `done` store refuses. -/
theorem claim_C8_reschedule_preserves_identity_witness :
    reschedule_reminder ⟨sDone, []⟩ "r1" 300 150 none = (⟨sDone, []⟩, false)
    ∧ (reschedule_reminder sys0 "r1" 300 150 none).2 = true
    ∧ lookupR (reschedule_reminder sys0 "r1" 300 150 none).1.store.reminders "r1" =
        some { rPending with due := some (DueVal.valid 300),
                             rescheduled_at := some 150,
                             original_due := some (DueVal.valid 100) }
    ∧ statusOf (reschedule_reminder sys0 "r1" 300 150 none).1.store "r1" =
        some Status.pending :=
  have h1 := (claim_C8_reschedule_preserves_identity ⟨sDone, []⟩ "r1" 300 150
    none).2.1 rDone (by decide) (by decide)
  have h2 := (claim_C8_reschedule_preserves_identity sys0 "r1" 300 150
    none).2.2 rPending (by decide) (by decide) (by decide)
  ⟨h1, h2.1, h2.2.1, h2.2.2⟩

/-! ### Claim C9 -/

/-- C9: the extractor is total over its candidate parses — for any
sequence of parser outcomes (pattern misses, unparseable phrases, past
candidates) it returns either `none` or a timestamp strictly later than
`now`; it never falls back to the current instant or a past time. -/
theorem claim_C9_extractor_total_never_past (now : Int)
    (cands : List (Option Int)) :
    extract_reminder_time now cands = none
    ∨ ∃ t, extract_reminder_time now cands = some t ∧ now < t := by
  cases he : extract_reminder_time now cands with
  | none => exact Or.inl rfl
  | some t =>
    exact Or.inr ⟨t, rfl, extract_reminder_time_some_future now cands t he⟩

/-! ### Claim C10 -/

/-- Every user bucket of the per-user dictionary has a positive total. -/
theorem bumpUser_total_pos (m : List (String × (Nat × Nat))) (sender : String)
    (b : Bool) (h : ∀ p ∈ m, 0 < p.2.1) :
    ∀ p ∈ bumpUser m sender b, 0 < p.2.1 := by
  induction m with
  | nil =>
    intro p hp
    simp only [bumpUser, List.mem_singleton] at hp
    subst hp
    exact Nat.one_pos
  | cons q rest ih =>
    intro p hp
    cases q with
    | mk u tc =>
      by_cases he : u = sender
      · simp only [bumpUser, he, if_true] at hp
        rcases List.mem_cons.mp hp with h1 | h1
        · subst h1
          exact Nat.succ_pos _
        · exact h p (List.mem_cons_of_mem _ h1)
      · simp only [bumpUser, he, if_false] at hp
        rcases List.mem_cons.mp hp with h1 | h1
        · subst h1
          exact h _ (List.mem_cons_self _ _)
        · exact ih (fun p2 hp2 => h p2 (List.mem_cons_of_mem _ hp2)) p h1

/-- The history fold preserves positivity of the per-user totals. -/
theorem foldl_statStep_total_pos (hist : List HistoryEntry) (acc : StatAcc)
    (h : ∀ p ∈ acc.by_user, 0 < p.2.1) :
    ∀ p ∈ (hist.foldl statStep acc).by_user, 0 < p.2.1 := by
  induction hist generalizing acc with
  | nil => exact h
  | cons e rest ih =>
    simp only [List.foldl_cons]
    apply ih
    intro p hp
    simp only [statStep] at hp
    by_cases hs : e.sender ≠ ""
    · rw [if_pos hs] at hp
      exact bumpUser_total_pos _ _ _ h p hp
    · rw [if_neg hs] at hp
      exact h p hp

/-- C10: `get_reminder_statistics` never divides by zero — on a
successful read, `overall_completion_rate` is `completed / total * 100`
exactly when `total_reminders > 0` and is `0` on an empty history, and
every per-user bucket has a strictly positive total with its
`completion_rate` the guarded quotient; a failed read returns the error
value instead of raising. -/
theorem claim_C10_stats_guarded (input : Except String (List HistoryEntry)) :
    (∀ hist, input = Except.ok hist →
      ∃ st, get_reminder_statistics input = Except.ok st
        ∧ (st.total_reminders > 0 →
            st.overall_completion_rate =
              (st.completed : ℚ) / (st.total_reminders : ℚ) * 100)
        ∧ (hist = [] → st.total_reminders = 0 ∧ st.overall_completion_rate = 0)
        ∧ ∀ p ∈ st.by_user, 0 < p.2.total
            ∧ p.2.completion_rate = (p.2.completed : ℚ) / (p.2.total : ℚ) * 100)
    ∧ (∀ e, input = Except.error e →
        get_reminder_statistics input = Except.error e) := by
  constructor
  · intro hist hin
    subst hin
    refine ⟨{ total_reminders := (hist.foldl statStep {}).total,
              completed := (hist.foldl statStep {}).completed,
              cancelled := (hist.foldl statStep {}).cancelled,
              rescheduled := (hist.foldl statStep {}).rescheduled,
              overall_completion_rate :=
                if (hist.foldl statStep {}).total > 0 then
                  ((hist.foldl statStep {}).completed : ℚ) /
                    ((hist.foldl statStep {}).total : ℚ) * 100
                else 0,
              by_user := (hist.foldl statStep {}).by_user.map fun p =>
                (p.1, { total := p.2.1, completed := p.2.2,
                        completion_rate :=
                          if p.2.1 > 0 then (p.2.2 : ℚ) / (p.2.1 : ℚ) * 100
                          else 0 }) },
            rfl, ?_, ?_, ?_⟩
    · intro hpos
      exact if_pos hpos
    · intro hemp
      subst hemp
      decide
    · intro p hp
      obtain ⟨q, hq, hpe⟩ := List.mem_map.mp hp
      have hqpos : 0 < q.2.1 :=
        foldl_statStep_total_pos hist {} (by intro p2 hp2; simp at hp2) q hq
      subst hpe
      exact ⟨hqpos, if_pos hqpos⟩
  · intro e hin
    subst hin
    rfl

/-- Witness for C10: a failed read surfaces the error value; the empty
history yields total 0 and rate 0; a one-entry completed history yields
the guarded quotient. -/
theorem claim_C10_stats_guarded_witness :
    get_reminder_statistics (Except.error "boom") = Except.error "boom"
    ∧ ((get_reminder_statistics (Except.ok ([] : List HistoryEntry))).toOption.map
        fun st => (st.total_reminders, st.overall_completion_rate)) = some (0, 0)
    ∧ ((get_reminder_statistics (Except.ok [hCompleted])).toOption.map
        fun st => st.overall_completion_rate) = some ((1 : ℚ) / (1 : ℚ) * 100) := by
  refine ⟨(claim_C10_stats_guarded (Except.error "boom")).2 "boom" rfl, ?_, ?_⟩
  · obtain ⟨st, hok, -, hemp, -⟩ :=
      (claim_C10_stats_guarded (Except.ok ([] : List HistoryEntry))).1 [] rfl
    obtain ⟨h0, hr⟩ := hemp rfl
    rw [hok]
    simp [Except.toOption, h0, hr]
  · obtain ⟨st, hok, hrate, -, -⟩ :=
      (claim_C10_stats_guarded (Except.ok [hCompleted])).1 [hCompleted] rfl
    have hcalc : get_reminder_statistics (Except.ok [hCompleted]) =
        Except.ok { total_reminders := 1, completed := 1, cancelled := 0,
                    rescheduled := 0,
                    overall_completion_rate := (1 : ℚ) / (1 : ℚ) * 100,
                    by_user := [("founder@example.com",
                      { total := 1, completed := 1,
                        completion_rate := (1 : ℚ) / (1 : ℚ) * 100 })] } := rfl
    have hok2 := hok
    rw [hcalc] at hok2
    injection hok2 with hst
    subst hst
    have htot := hrate (by decide)
    rw [hok]
    simp [Except.toOption]

end ReminderSpec
